import Mathlib

/-!
Shallow embedding of the content-indexing pipeline of `bwctl`
(`src/bwctl/db/indexer.py` together with the data model of
`src/bwctl/db/models.py`), and proofs checking the frozen claims about it.

Modelling conventions:
* Python strings are Lean `String`s; character-level computations go through
  `String.toList`.  Python's whitespace and word-character classes are modelled
  over their ASCII parts, which cover every string the indexer manipulates.
* Filesystem paths are lists of path segments (`pathlib.PurePath.parts`);
  `str(path)` is modelled as the segments joined with `"/"`.
* The filesystem itself is explicit data: a list of files (with size, mtime and
  an optional parsed WAV header) and a list of directories.
* Runtime exceptions (I/O failures, database errors) are abstracted by a
  predicate `excepts : SrcFile → Bool` passed to the scheduler model: the
  worker body `index_one` catches every exception and turns it into a `false`
  outcome, which is all the aggregate statistics can observe.
-/

namespace Bwctl

/-! ### Python string primitives -/

/-- ASCII part of Python's `str.isspace` / regex `\s` class. -/
def isPySpace (c : Char) : Bool :=
  c == ' ' || c == '\t' || c == '\n' || c == '\r' || c == '\x0b' || c == '\x0c'

/-- Python regex `\w` (ASCII part): letters, digits, underscore. -/
def isWordChar (c : Char) : Bool :=
  c.isAlpha || c.isDigit || c == '_'

/-- `str.strip()` on a character list: drop whitespace at both ends. -/
def pyStrip (l : List Char) : List Char :=
  ((l.dropWhile isPySpace).reverse.dropWhile isPySpace).reverse

/-- Index of the first occurrence of `needle` as a contiguous sublist of
`hay` (Python `str.find` / the `in` operator). -/
def findSub (needle : List Char) : List Char → Option Nat
  | [] => if needle.isEmpty then some 0 else none
  | c :: rest =>
    if needle.isPrefixOf (c :: rest) then some 0
    else (findSub needle rest).map (· + 1)

/-- Python `needle in hay` for strings. -/
def strContains (needle hay : List Char) : Bool :=
  (findSub needle hay).isSome

/-- Lowercase a character list (`str.lower`, ASCII part). -/
def pyLower (l : List Char) : List Char :=
  l.map Char.toLower

/-- Index of the last character satisfying `p`, if any. -/
def rfindIdx (p : Char → Bool) (l : List Char) : Option Nat :=
  (l.reverse.findIdx? p).map (fun j => l.length - 1 - j)

/-! ### `pathlib` fragments -/

/-- `PurePath.suffix`: the final `"."`-extension of a file name, empty when the
last dot is leading (dotfiles) or absent or final. -/
def pySuffix (name : String) : String :=
  let cs := name.toList
  match rfindIdx (· == '.') cs with
  | some i => if 0 < i && i + 1 < cs.length then (cs.drop i).asString else ""
  | none => ""

/-- `PurePath.stem`: the file name with `pySuffix` removed. -/
def pyStem (name : String) : String :=
  let cs := name.toList
  match rfindIdx (· == '.') cs with
  | some i => if 0 < i && i + 1 < cs.length then (cs.take i).asString else name
  | none => name

/-- `str(path)` for a path given by its segments. -/
def joinParts (parts : List String) : String :=
  String.intercalate "/" parts

/-! ### Data model (`models.py`) -/

/-- `ContentType` enumeration. -/
inductive ContentType where
  | preset | clip | sample | multisample | impulse | curve
  | wavetable | device | plugin | template | project
deriving DecidableEq, Repr

/-- `DeviceType` enumeration. -/
inductive DeviceType where
  | instrument | audio_fx | note_fx | modulator | container | utility
deriving DecidableEq, Repr

/-! ### Classification tables (`indexer.py` top level) -/

/-- `EXTENSION_MAP`, in source (insertion) order. -/
def EXTENSION_MAP : List (String × ContentType) :=
  [ (".bwpreset", .preset), (".bwclip", .clip),
    (".wav", .sample), (".aif", .sample), (".aiff", .sample),
    (".flac", .sample), (".ogg", .sample), (".mp3", .sample),
    (".multisample", .multisample), (".bwimpulse", .impulse),
    (".bwcurve", .curve), (".bwwavetable", .wavetable),
    (".bwtemplate", .template), (".bwproject", .project) ]

/-- `DEVICE_TYPE_PATTERNS`: each regex `(?i)(a|b|...)` is an unordered
case-insensitive substring search for any of its alternatives; groups are
tried in source order, first group with a match wins. -/
def DEVICE_TYPE_PATTERNS : List (List String × DeviceType) :=
  [ (["polymer", "phase-4", "fm-4", "polysynth", "sampler", "organ",
      "piano", "synth", "instrument"], .instrument),
    (["eq", "filter", "comp", "reverb", "delay", "chorus", "flanger",
      "phaser", "distort", "amp", "fx"], .audio_fx),
    (["arpeggiator", "note", "chord", "scale", "transpose", "velocity",
      "midi"], .note_fx),
    (["lfo", "adsr", "envelope", "steps", "curve", "macro", "modulator"],
      .modulator),
    (["layer", "chain", "selector", "container", "rack", "split"],
      .container),
    (["meter", "tool", "utility", "audio receiver", "note receiver"],
      .utility) ]

/-- `get_content_type`: case-insensitive extension lookup. -/
def get_content_type (fileName : String) : Option ContentType :=
  EXTENSION_MAP.lookup (pyLower (pySuffix fileName).toList).asString

/-- `get_device_type`: first pattern group containing a (case-insensitive)
substring of the device name wins. -/
def get_device_type (deviceName : String) : Option DeviceType :=
  (DEVICE_TYPE_PATTERNS.find? fun g =>
    g.1.any fun kw => strContains kw.toList (pyLower deviceName.toList)).map (·.2)

/-! ### `parse_preset_name` -/

/-- The tail of the regex `\[([^\]]+)\]\s*(.+)` after the closing bracket:
greedy `\s*` followed by `(.+)` (where `.` excludes newline), with the
backtracking Python's engine performs when the remainder is all whitespace.
Returns the text captured by the second group. -/
def wsThenAny (rest : List Char) : Option (List Char) :=
  let k := (rest.takeWhile isPySpace).length
  if k < rest.length then
    some ((rest.drop k).takeWhile (· != '\n'))
  else
    (rfindIdx (· != '\n') rest).map fun p => (rest.drop p).takeWhile (· != '\n')

/-- `re.match(r"\[([^\]]+)\]\s*(.+)", name)`: an anchored match returning the
two capture groups (bracketed text; remainder). -/
def bracketMatch (cs : List Char) : Option (List Char × List Char) :=
  match cs with
  | '[' :: rest =>
    match rest.findIdx? (· == ']') with
    | some j =>
      if j == 0 then none
      else (wsThenAny (rest.drop (j + 1))).map fun g2 => (rest.take j, g2)
    | none => none
  | _ => none

/-- The category-extraction steps of `parse_preset_name` (lines 91-104):
split on the first `" - "`, then apply the bracket-prefix match to the
(possibly stripped) name.  Returns the `result["category"]` dict entry and
the final local `name` used afterwards for tag extraction. -/
def parseCatName (name : String) : Option String × List Char :=
  let cs := name.toList
  let sep := (' ' :: '-' :: ' ' :: [])
  let (cat0, n1) :=
    match findSub sep cs with
    | some i => (some (pyStrip (cs.take i)).asString, pyStrip (cs.drop (i + 3)))
    | none => (none, cs)
  match bracketMatch n1 with
  | some (g1, g2) => (some g1.asString, g2)
  | none => (cat0, n1)

/-- `tag_patterns` of `parse_preset_name`: four keyword groups, scanned in
source order.  Each is `(?i)\b(kw1|kw2|...)\b`. -/
def TAG_PATTERNS : List (List String) :=
  [ ["analog", "digital", "fm", "wavetable", "sample", "granular"],
    ["warm", "cold", "dark", "bright", "soft", "hard", "aggressive"],
    ["ambient", "cinematic", "vintage", "modern", "classic"],
    ["bass", "lead", "pad", "pluck", "keys", "strings", "brass", "perc"] ]

/-- At the head of `l`, the first alternative `w` that matches
case-insensitively with a word boundary after it (all keywords start and end
with word characters, so `\b` before is checked by the caller). -/
def firstAltMatch (alts : List String) (l : List Char) : Option (List Char) :=
  (alts.find? fun w =>
    let wc := w.toList
    decide (pyLower (l.take wc.length) = wc) &&
      (match l.drop wc.length with
       | [] => true
       | c :: _ => !isWordChar c)).map (·.toList)

/-- `re.findall` for one tag pattern: scan left to right, requiring a word
boundary before each match; matches do not overlap.  `prev` is the character
preceding the current position, if any.  Emitted tags are already lowercase
(the match lowercased equals the keyword). -/
def scanTags (alts : List String) (prev : Option Char) : List Char → List String
  | [] => []
  | c :: rest =>
    let boundaryOk := match prev with
      | none => true
      | some p => !isWordChar p
    match (if boundaryOk then firstAltMatch alts (c :: rest) else none) with
    | some w =>
      w.asString ::
        scanTags alts (((c :: rest).take w.length).getLast? )
          (rest.drop (w.length - 1))
    | none => scanTags alts (some c) rest
  termination_by l => l.length
  decreasing_by
    · simp [List.length_drop]; omega
    · simp

/-- `parse_preset_name`: returns the `category` and `tags` entries of the
result dict (the locally stripped name is not returned by the source). -/
def parse_preset_name (name : String) : Option String × List String :=
  let (cat, n) := parseCatName name
  (cat, TAG_PATTERNS.flatMap fun g => scanTags g none n)

/-! ### Filesystem model -/

/-- Header fields the `wave` module exposes for a parseable WAV file. -/
structure WavHeader where
  frameRate : Nat
  nChannels : Nat
  nFrames : Nat
deriving DecidableEq, Repr

/-- One file on disk: its path segments, `stat` data, and the WAV header
`wave.open` would yield (`none` when opening/parsing raises). -/
structure SrcFile where
  parts : List String
  size : Nat
  mtime : Nat
  wavHeader : Option WavHeader := none
deriving DecidableEq, Repr

/-- `path.name`: the final path segment. -/
def SrcFile.fileName (f : SrcFile) : String :=
  f.parts.getLast?.getD ""

/-- Audio properties returned by a successful `get_wav_info`. -/
structure AudioProps where
  sample_rate : Nat
  channels : Nat
  duration_ms : Nat
deriving DecidableEq, Repr

/-- `get_wav_info`: read frame rate, channel count and duration from the WAV
header; any exception (unparseable file, and the `ZeroDivisionError` when the
frame rate is 0) yields the empty dict, modelled as `none`.  CPython computes
`int(nframes / framerate * 1000)` in binary floating point; the model uses the
exact truncated quotient, which agrees on headers whose quotient the float
computation represents exactly enough. -/
def get_wav_info (hdr : Option WavHeader) : Option AudioProps :=
  match hdr with
  | none => none
  | some h =>
    if h.frameRate == 0 then none
    else some ⟨h.frameRate, h.nChannels, h.nFrames * 1000 / h.frameRate⟩

/-! ### `Content` (models.py) -/

/-- The `Content` pydantic model, restricted to the fields the indexer and the
store touch.  Defaults mirror `models.py` (`None`, `[]`).  `device_uuid`,
`bpm` and timestamps are carried opaquely (`bpm` is a float in the source but
the indexer never sets it). -/
structure Content where
  name : String
  file_path : String
  content_type : ContentType
  package_id : Option Nat := none
  parent_device : Option String := none
  description : Option String := none
  category : Option String := none
  subcategory : Option String := none
  tags : List String := []
  creator : Option String := none
  device_type : Option DeviceType := none
  device_uuid : Option String := none
  plugin_id : Option String := none
  sample_rate : Option Nat := none
  channels : Option Nat := none
  duration_ms : Option Nat := none
  bpm : Option Nat := none
  key_signature : Option String := none
  file_size : Option Nat := none
  file_hash : Option String := none
  modified_at : Option Nat := none
deriving DecidableEq, Repr

/-- Python truthiness of an optional string (`None` and `""` are falsy). -/
def pyTruthy : Option String → Bool
  | none => false
  | some s => s ≠ ""

/-! ### `index_file` -/

/-- Parent-device inference of `index_file` (lines 169-174): if some path
segment equals `"Presets"`, and the segment after the first such occurrence is
not the final (file-name) segment, that next segment is the parent device. -/
def inferParentDevice (parts : List String) : Option String :=
  if parts.contains "Presets" then
    let i := parts.indexOf "Presets"
    if i + 1 < parts.length - 1 then some (parts.getD (i + 1) "") else none
  else none

/-- `index_file`: classify one file and build its `Content` record.  Returns
`none` when the extension is unrecognized. -/
def index_file (f : SrcFile) (package_id : Option Nat := none) : Option Content :=
  match get_content_type f.fileName with
  | none => none
  | some content_type =>
    let name := pyStem f.fileName
    let parsed := parse_preset_name name
    let parent_device := inferParentDevice f.parts
    let category :=
      if !pyTruthy parsed.1 && pyTruthy parent_device then parent_device
      else parsed.1
    let device_type :=
      if pyTruthy parent_device then get_device_type (parent_device.getD "")
      else none
    let audio_props :=
      if content_type == ContentType.sample && pyLower (pySuffix f.fileName).toList = ".wav".toList
      then get_wav_info f.wavHeader
      else none
    some
    { name := name
      file_path := joinParts f.parts
      content_type := content_type
      package_id := package_id
      parent_device := parent_device
      category := category
      tags := parsed.2
      device_type := device_type
      sample_rate := (audio_props.map (·.sample_rate))
      channels := (audio_props.map (·.channels))
      duration_ms := (audio_props.map (·.duration_ms))
      file_size := some f.size
      modified_at := some f.mtime }

/-! ### Discovery (`discover_packages`, `discover_content`) -/

/-- The filesystem a run sees: files plus the directories `iterdir`/`exists`
observe.  List order models the (arbitrary but fixed) directory-listing
order. -/
structure FS where
  files : List SrcFile
  dirs : List (List String)
deriving Repr

/-- `path.exists()` for a directory path (package discovery only probes
directories). -/
def FS.dirExists (fs : FS) (d : List String) : Bool :=
  fs.dirs.contains d

/-- The subdirectories of `d` (`iterdir` entries passing `is_dir()`). -/
def FS.childDirs (fs : FS) (d : List String) : List (List String) :=
  fs.dirs.filter fun e => e.length == d.length + 1 && d.isPrefixOf e

/-- Whether file `f` lies strictly below directory `d`. -/
def underDir (d : List String) (f : SrcFile) : Bool :=
  d.isPrefixOf f.parts && d.length < f.parts.length

/-- A package descriptor dict produced by `discover_packages`. -/
structure Pkg where
  name : String
  vendor : String
  version : String
  path : List String
  is_factory : Bool
deriving DecidableEq, Repr

/-- `discover_packages`: walk `base/installed-packages/<version>/<vendor>/<pkg>`.
(`(base/"installed-packages").exists()` is modelled as directory existence;
an ordinary file of that name would crash `iterdir` and abort the run.) -/
def discover_packages (fs : FS) (base : List String) : List Pkg :=
  let ip := base ++ ["installed-packages"]
  if fs.dirExists ip then
    (fs.childDirs ip).flatMap fun versionDir =>
      (fs.childDirs versionDir).flatMap fun vendorDir =>
        let vendor := vendorDir.getLast?.getD ""
        (fs.childDirs vendorDir).map fun packageDir =>
          { name := packageDir.getLast?.getD ""
            vendor := vendor
            version := versionDir.getLast?.getD ""
            path := packageDir
            is_factory := vendor == "Bitwig" }
  else []

/-- One `rglob(f"*{ext}")` call: every file strictly below `dir` whose name
ends with `ext`.  `pathlib` globbing is case-sensitive on POSIX and does not
skip dotfiles, so a file named exactly `.wav` matches `*.wav`. -/
def rglobExt (fs : FS) (dir : List String) (ext : String) : List SrcFile :=
  fs.files.filter fun f => underDir dir f && ext.toList.isSuffixOf f.fileName.toList

/-- `discover_content`: chain the `rglob` results of every extension in
table order. -/
def discover_content (fs : FS) (dir : List String) : List SrcFile :=
  EXTENSION_MAP.flatMap fun e => rglobExt fs dir e.1

/-! ### Store model (`save_package`, `save_content`) -/

/-- The `packages` table: assigned ids keyed by path, plus the id sequence. -/
structure PkgDb where
  next : Nat
  rows : List (List String × Nat)
deriving Repr

/-- `save_package`: upsert keyed on `path`, `RETURNING id` — on conflict the
existing row keeps its id (its other columns are overwritten, which the model
does not track). -/
def save_package (db : PkgDb) (p : Pkg) : Nat × PkgDb :=
  match db.rows.lookup p.path with
  | some id => (id, db)
  | none => (db.next, ⟨db.next + 1, db.rows ++ [(p.path, db.next)]⟩)

/-- One row of the `content` table: exactly the columns `save_content`
inserts, plus `indexed_at` (set by the database on insert/update). -/
structure ContentRow where
  name : String
  file_path : String
  content_type : ContentType
  package_id : Option Nat
  parent_device : Option String
  description : Option String
  category : Option String
  subcategory : Option String
  tags : List String
  creator : Option String
  device_type : Option DeviceType
  device_uuid : Option String
  plugin_id : Option String
  sample_rate : Option Nat
  channels : Option Nat
  duration_ms : Option Nat
  bpm : Option Nat
  key_signature : Option String
  file_size : Option Nat
  file_hash : Option String
  modified_at : Option Nat
  indexed_at : Option Nat
deriving DecidableEq, Repr

/-- The `VALUES` tuple of `save_content`'s `INSERT` (fresh-path case);
`indexed_at` is filled by the database at time `now`. -/
def insertRow (c : Content) (now : Nat) : ContentRow :=
  { name := c.name
    file_path := c.file_path
    content_type := c.content_type
    package_id := c.package_id
    parent_device := c.parent_device
    description := c.description
    category := c.category
    subcategory := c.subcategory
    tags := c.tags
    creator := c.creator
    device_type := c.device_type
    device_uuid := c.device_uuid
    plugin_id := c.plugin_id
    sample_rate := c.sample_rate
    channels := c.channels
    duration_ms := c.duration_ms
    bpm := c.bpm
    key_signature := c.key_signature
    file_size := c.file_size
    file_hash := c.file_hash
    modified_at := c.modified_at
    indexed_at := some now }

/-- The `ON CONFLICT (file_path) DO UPDATE SET` clause of `save_content`:
the listed columns take the excluded (incoming) values, `indexed_at` is set
to `NOW()`, and every other column keeps the stored row's value. -/
def conflictUpdate (old : ContentRow) (c : Content) (now : Nat) : ContentRow :=
  { old with
    name := c.name
    content_type := c.content_type
    package_id := c.package_id
    parent_device := c.parent_device
    category := c.category
    tags := c.tags
    device_type := c.device_type
    file_size := c.file_size
    modified_at := c.modified_at
    indexed_at := some now }

/-! ### `run_indexer` -/

/-- Run statistics (`stats` dict). -/
structure Stats where
  packages : Nat
  files : Nat
  errors : Nat
deriving DecidableEq, Repr

/-- The package-saving loop (lines 345-349): upsert each package in
discovery order, recording the returned id. -/
def savePackagesLoop : List Pkg → PkgDb → List (Pkg × Nat) × PkgDb
  | [], db => ([], db)
  | p :: rest, db =>
    let (id, db1) := save_package db p
    let (saved, db2) := savePackagesLoop rest db1
    ((p, id) :: saved, db2)

/-- The `package_ids` dict after the saving loop: keyed by `str(path)`, last
write wins. -/
def packageIdsLookup (saved : List (Pkg × Nat)) (path : List String) : Option Nat :=
  (saved.reverse.map fun s => (s.1.path, s.2)).lookup path

/-- A root path passed to the run (after `expanduser`), with the result of
`path.exists()`. -/
structure RootPath where
  parts : List String
  present : Bool
deriving Repr

/-- The worker body `index_one`, returning the per-file outcome: `false` for
an unrecognized extension (`index_file` returns `None`) and `false` when any
exception escapes `index_file`/`save_content` (abstracted by `excepts`);
`true` exactly when a record was written. -/
def index_one (excepts : SrcFile → Bool) (arg : SrcFile × Option Nat) : Bool :=
  match get_content_type arg.1.fileName with
  | none => false
  | some _ => !excepts arg.1

/-- The aggregation loop over `as_completed(futures)`: one outcome per file,
in completion order. -/
def tallyOutcomes (outs : List Bool) (s : Stats) : Stats :=
  outs.foldl (fun acc o =>
    if o then { acc with files := acc.files + 1 }
    else { acc with errors := acc.errors + 1 }) s

/-- Everything `run_indexer` computes that the claims talk about. -/
structure RunResult where
  allPackages : List Pkg
  savedPackages : List (Pkg × Nat)
  filesToIndex : List (SrcFile × Option Nat)
  stats : Stats
deriving Repr

/-- `run_indexer` on existing roots `roots` over filesystem `fs`, starting
from package table `db`.  `workers` is the thread-pool size; per-file
outcomes are computed independently of it verbatim from `index_one`, and the
statistics are tallied here in submission order (`completionOrder` theorems
quantify over every other completion order).  The `full`/`clear_index` branch
is outside every claim and not modelled. -/
def run_indexer (fs : FS) (roots : List RootPath) (db : PkgDb)
    (excepts : SrcFile → Bool) (workers : Nat) : RunResult :=
  let _ := workers
  let all_packages :=
    (roots.filter (·.present)).flatMap fun r => discover_packages fs r.parts
  let saved := (savePackagesLoop all_packages db).1
  let pkgFiles :=
    all_packages.flatMap fun pkg =>
      (discover_content fs pkg.path).map fun f =>
        (f, some ((packageIdsLookup saved pkg.path).getD 0))
  let libFiles :=
    (roots.filter fun r =>
        r.present && !strContains "installed-packages".toList (joinParts r.parts).toList).flatMap
      fun r => (discover_content fs r.parts).map fun f => (f, (none : Option Nat))
  let files_to_index := pkgFiles ++ libFiles
  let outcomes := files_to_index.map (index_one excepts)
  { allPackages := all_packages
    savedPackages := saved
    filesToIndex := files_to_index
    stats := tallyOutcomes outcomes ⟨all_packages.length, 0, 0⟩ }

/-! ### Concrete scenarios used by witnesses and counterexamples -/

/-- A preset file below a `Presets/Polymer` directory. -/
def presetPlain : SrcFile :=
  { parts := ["Library", "Presets", "Polymer", "Deep Sub.bwpreset"],
    size := 4, mtime := 2 }

/-- The same location with a bracket-prefixed display name. -/
def presetBracket : SrcFile :=
  { parts := ["Library", "Presets", "Polymer", "[Bass] Deep Sub.bwpreset"],
    size := 4, mtime := 2 }

/-- A WAV sample whose header parses: 44.1 kHz stereo, 66150 frames. -/
def kickFile : SrcFile :=
  { parts := ["home", "lib", "kick.wav"], size := 9, mtime := 3,
    wavHeader := some ⟨44100, 2, 66150⟩ }

/-- A library root without the `installed-packages` marker in its path. -/
def libRoot : RootPath := { parts := ["home", "lib"], present := true }

/-- A package table whose id sequence starts at 1. -/
def pkgDb1 : PkgDb := ⟨1, []⟩

/-- No runtime exceptions. -/
def exF : SrcFile → Bool := fun _ => false

/-- A file named exactly `.wav`: matched by the `*.wav` glob, but its
`pathlib` suffix is empty, so its kind is unrecognized. -/
def dotWav : SrcFile := { parts := ["home", "lib", ".wav"], size := 1, mtime := 1 }

/-- A library containing only the `.wav` dotfile. -/
def fsDot : FS := { files := [dotWav], dirs := [["home", "lib"]] }

/-- A file with an upper-case extension: case-insensitively recognized, but
never matched by the case-sensitive globs. -/
def upWav : SrcFile := { parts := ["home", "lib", "A.WAV"], size := 1, mtime := 1 }

/-- A library containing only the upper-case-extension file. -/
def fsUp : FS := { files := [upWav], dirs := [["home", "lib"]] }

/-- A library containing only `kickFile`. -/
def fsKick : FS := { files := [kickFile], dirs := [["home", "lib"]] }

/-- A packaged preset inside `home/bw/installed-packages/5.0/Bitwig/Grand`. -/
def pkgFile : SrcFile :=
  { parts := ["home", "bw", "installed-packages", "5.0", "Bitwig", "Grand",
              "a.bwpreset"],
    size := 3, mtime := 9 }

/-- A root that contains an installed-packages subtree holding `pkgFile`. -/
def fsPkg : FS :=
  { files := [pkgFile],
    dirs := [ ["home", "bw"],
              ["home", "bw", "installed-packages"],
              ["home", "bw", "installed-packages", "5.0"],
              ["home", "bw", "installed-packages", "5.0", "Bitwig"],
              ["home", "bw", "installed-packages", "5.0", "Bitwig", "Grand"] ] }

/-- The root path of `fsPkg`. -/
def bwRoot : RootPath := { parts := ["home", "bw"], present := true }

/-! ### Supporting lemmas -/

theorem tallyOutcomes_spec (outs : List Bool) (s : Stats) :
    tallyOutcomes outs s =
      ⟨s.packages, s.files + outs.count true, s.errors + outs.count false⟩ := by
  induction outs generalizing s with
  | nil => simp [tallyOutcomes]
  | cons o rest ih =>
    cases o <;>
      simp [tallyOutcomes, List.count_cons] at ih ⊢ <;>
      rw [ih] <;> simp <;> omega

theorem count_true_add_count_false (outs : List Bool) :
    outs.count true + outs.count false = outs.length := by
  induction outs with
  | nil => simp
  | cons o rest ih => cases o <;> simp [List.count_cons] <;> omega

theorem savePackagesLoop_fst (pkgs : List Pkg) (db : PkgDb) :
    (savePackagesLoop pkgs db).1.map (·.1) = pkgs := by
  induction pkgs generalizing db with
  | nil => simp [savePackagesLoop]
  | cons p rest ih => simp [savePackagesLoop, ih]

theorem lookup_mem {α β : Type} [BEq α] [LawfulBEq α] {l : List (α × β)} {k : α}
    {v : β} (h : l.lookup k = some v) : (k, v) ∈ l := by
  induction l with
  | nil => simp [List.lookup] at h
  | cons p rest ih =>
    rw [List.lookup] at h
    by_cases hk : k == p.1
    · simp [hk] at h
      have hp : p = (k, v) := by
        obtain ⟨a, b⟩ := p
        simp at hk h
        exact Prod.ext hk.symm h
      rw [hp]
      exact List.mem_cons_self _ _
    · simp [hk] at h
      exact List.mem_cons_of_mem _ (ih h)

theorem lookup_of_mem_keys {α β : Type} [BEq α] [LawfulBEq α] {l : List (α × β)}
    {k : α} (h : k ∈ l.map (·.1)) : ∃ v, l.lookup k = some v := by
  induction l with
  | nil => simp at h
  | cons p rest ih =>
    rw [List.map_cons, List.mem_cons] at h
    rw [List.lookup]
    by_cases hk : k == p.1
    · exact ⟨p.2, by simp [hk]⟩
    · rcases h with h | h
      · exact absurd (beq_iff_eq.mpr h) (by simpa using hk)
      · simpa [hk] using ih h

/-! ### Claim theorems -/

/-- C10: when a content upsert hits an existing file path, exactly the columns
name, content_type, package_id, parent_device, category, tags, device_type,
file_size, modified_at and indexed_at take the incoming values; file_path,
description, subcategory, creator, device_uuid, plugin_id, sample_rate,
channels, duration_ms, bpm, key_signature and file_hash keep the stored
values, whatever the incoming record carries. -/
theorem C10_conflict_update_frame (old : ContentRow) (c : Content) (now : Nat) :
    ((conflictUpdate old c now).name = c.name ∧
     (conflictUpdate old c now).content_type = c.content_type ∧
     (conflictUpdate old c now).package_id = c.package_id ∧
     (conflictUpdate old c now).parent_device = c.parent_device ∧
     (conflictUpdate old c now).category = c.category ∧
     (conflictUpdate old c now).tags = c.tags ∧
     (conflictUpdate old c now).device_type = c.device_type ∧
     (conflictUpdate old c now).file_size = c.file_size ∧
     (conflictUpdate old c now).modified_at = c.modified_at ∧
     (conflictUpdate old c now).indexed_at = some now) ∧
    ((conflictUpdate old c now).file_path = old.file_path ∧
     (conflictUpdate old c now).description = old.description ∧
     (conflictUpdate old c now).subcategory = old.subcategory ∧
     (conflictUpdate old c now).creator = old.creator ∧
     (conflictUpdate old c now).device_uuid = old.device_uuid ∧
     (conflictUpdate old c now).plugin_id = old.plugin_id ∧
     (conflictUpdate old c now).sample_rate = old.sample_rate ∧
     (conflictUpdate old c now).channels = old.channels ∧
     (conflictUpdate old c now).duration_ms = old.duration_ms ∧
     (conflictUpdate old c now).bpm = old.bpm ∧
     (conflictUpdate old c now).key_signature = old.key_signature ∧
     (conflictUpdate old c now).file_hash = old.file_hash) :=
  ⟨⟨rfl, rfl, rfl, rfl, rfl, rfl, rfl, rfl, rfl, rfl⟩,
   ⟨rfl, rfl, rfl, rfl, rfl, rfl, rfl, rfl, rfl, rfl, rfl, rfl⟩⟩

/-- C1: the claim says every indexed file's persisted record carries the
streamed SHA-256 digest of the file.  In the source, `compute_file_hash`
exists but is never invoked: `index_file` builds the `Content` with the model
default `file_hash = None`, and `save_content` persists that `None`.  So the
persisted hash of every indexed file is absent, never a digest. -/
theorem C1_file_hash_never_computed (f : SrcFile) (pid : Option Nat)
    (c : Content) (now : Nat) (h : index_file f pid = some c) :
    c.file_hash = none ∧ (insertRow c now).file_hash = none := by
  rw [index_file] at h
  cases hg : get_content_type f.fileName <;> rw [hg] at h
  · exact absurd h (by simp)
  · simp only [Option.some.injEq] at h
    subst h
    exact ⟨rfl, rfl⟩

/-- C1 witness: a concrete preset is indexed with no file hash. -/
theorem C1_file_hash_never_computed_witness :
    ((index_file presetPlain none).map (·.file_hash)) = some none := by
  cases hc : index_file presetPlain none with
  | none => exact absurd hc (by decide)
  | some c =>
    simp only [Option.map]
    rw [(C1_file_hash_never_computed presetPlain none c 0 hc).1]

/-- C6 counterexample: the claim says that for a name containing `" - "` the
left side becomes the category and the bracket rule does not apply.  On
`"Bass - [Lead] Scream"` the source applies the separator rule and then the
bracket rule as well, so the category ends up `"Lead"`, not `"Bass"`. -/
theorem C6_counterexample :
    parseCatName "Bass - [Lead] Scream" = (some "Lead", "Scream".toList) ∧
      (some "Lead" : Option String) ≠ some "Bass" := by
  exact ⟨by decide, by decide⟩

/-- C6 amended: when the display name contains `" - "`, the left side is taken
as category and the name is stripped to the right side; the bracket-prefix
rule is then additionally applied to the stripped remainder and, when it
matches, overrides the category with the bracketed text — the two rules are
sequential, not mutually exclusive alternatives. -/
theorem C6_separator_then_bracket (name : String) (i : Nat)
    (h : findSub (' ' :: '-' :: ' ' :: []) name.toList = some i) :
    parseCatName name =
      match bracketMatch (pyStrip (name.toList.drop (i + 3))) with
      | some (g1, g2) => (some g1.asString, g2)
      | none => (some (pyStrip (name.toList.take i)).asString,
                 pyStrip (name.toList.drop (i + 3))) := by
  rw [parseCatName, h]

/-- C6 amended witness: `"Bass - Analog"` contains the separator at index 4;
the bracket rule does not match the remainder, so the left side is kept. -/
theorem C6_separator_then_bracket_witness :
    findSub (' ' :: '-' :: ' ' :: []) "Bass - Analog".toList = some 4 ∧
      parseCatName "Bass - Analog" = (some "Bass", "Analog".toList) := by
  refine ⟨by decide, ?_⟩
  rw [C6_separator_then_bracket "Bass - Analog" 4 (by decide)]
  decide

/-- C7: the persisted category is the category parsed from the display name
when one is parsed (Python-truthy), else the parent-device name inferred from
the path when one is inferred, else absent; in particular
`[Bass] Deep Sub` under `Presets/Polymer` yields `Bass`, and `Deep Sub`
under the same path yields `Polymer`. -/
theorem C7_category_fallback (f : SrcFile) (pid : Option Nat) (c : Content)
    (h : index_file f pid = some c) :
    (pyTruthy (parse_preset_name (pyStem f.fileName)).1 = true →
        c.category = (parse_preset_name (pyStem f.fileName)).1) ∧
    (pyTruthy (parse_preset_name (pyStem f.fileName)).1 = false →
        pyTruthy (inferParentDevice f.parts) = true →
        c.category = inferParentDevice f.parts) ∧
    ((parse_preset_name (pyStem f.fileName)).1 = none →
        inferParentDevice f.parts = none → c.category = none) ∧
    (index_file presetBracket none).map (·.category) = some (some "Bass") ∧
    (index_file presetPlain none).map (·.category) = some (some "Polymer") := by
  rw [index_file] at h
  cases hg : get_content_type f.fileName <;> rw [hg] at h
  · exact absurd h (by simp)
  · simp only [Option.some.injEq] at h
    subst h
    refine ⟨?_, ?_, ?_, by decide, by decide⟩
    · intro ht
      simp [ht]
    · intro ht hp
      simp [ht, hp]
    · intro hn hp
      simp [pyTruthy, hn, hp]

/-- C7 witness: the fallback to the parent device fires on the concrete
`Deep Sub.bwpreset` below `Presets/Polymer`. -/
theorem C7_category_fallback_witness :
    (index_file presetPlain none).map (·.category) = some (some "Polymer") := by
  cases hc : index_file presetPlain none with
  | none => exact absurd hc (by decide)
  | some c =>
    simp only [Option.map]
    rw [(C7_category_fallback presetPlain none c hc).2.1 (by decide) (by decide)]
    decide

/-- C8: for a file of kind sample whose extension is the decodable container
format (`.wav`), a parseable header yields sample rate, channel count and
duration (frames divided by frame rate, in milliseconds); a failed header
parse still indexes the file, with all audio properties absent; and for any
other content kind the result never depends on (never reads) the WAV header,
and carries no audio properties. -/
theorem C8_sample_header_extraction (f : SrcFile) (pid : Option Nat) :
    (∀ c h, index_file f pid = some c →
        get_content_type f.fileName = some ContentType.sample →
        pyLower (pySuffix f.fileName).toList = ".wav".toList →
        f.wavHeader = some h → h.frameRate ≠ 0 →
        c.sample_rate = some h.frameRate ∧ c.channels = some h.nChannels ∧
          c.duration_ms = some (h.nFrames * 1000 / h.frameRate)) ∧
    (∀ ct, get_content_type f.fileName = some ct →
        get_wav_info f.wavHeader = none →
        (index_file f pid).isSome = true ∧
        ∀ c, index_file f pid = some c →
          c.sample_rate = none ∧ c.channels = none ∧ c.duration_ms = none) ∧
    (get_content_type f.fileName ≠ some ContentType.sample →
      (∀ hdr hdr2, index_file { f with wavHeader := hdr } pid =
          index_file { f with wavHeader := hdr2 } pid) ∧
      ∀ c, index_file f pid = some c →
        c.sample_rate = none ∧ c.channels = none ∧ c.duration_ms = none) := by
  refine ⟨?_, ?_, ?_⟩
  · intro c h hc hCt hSuf hHdr hFr
    rw [index_file, hCt] at hc
    simp only [Option.some.injEq] at hc
    subst hc
    have hSuf2 : pyLower (pySuffix f.fileName).data = ['.', 'w', 'a', 'v'] := by
      simpa [String.toList] using hSuf
    simp [hSuf2, hHdr, get_wav_info, hFr]
  · intro ct hCt hWav
    rw [index_file, hCt]
    refine ⟨by simp, ?_⟩
    intro c hc
    simp only [Option.some.injEq] at hc
    subst hc
    simp only []
    constructor
    · split <;> simp [hWav]
    constructor
    · split <;> simp [hWav]
    · split <;> simp [hWav]
  · intro hns
    have hfn : ∀ o : Option WavHeader,
        ({ f with wavHeader := o } : SrcFile).fileName = f.fileName := fun _ => rfl
    cases hg : get_content_type f.fileName with
    | none =>
      refine ⟨?_, ?_⟩
      · intro hdr hdr2
        rw [index_file, index_file]
        simp only [hfn, hg]
      · intro c hc
        rw [index_file, hg] at hc
        exact absurd hc (by simp)
    | some ct =>
      have hct : ct ≠ ContentType.sample := fun he => hns (he ▸ hg)
      refine ⟨?_, ?_⟩
      · intro hdr hdr2
        rw [index_file, index_file]
        simp only [hfn, hg]
        simp [hct]
      · intro c hc
        rw [index_file, hg] at hc
        simp only [Option.some.injEq] at hc
        subst hc
        simp [hct]

/-- C8 witness: the concrete 44.1 kHz stereo WAV of 66150 frames is indexed
with sample rate 44100, 2 channels and duration 1500 ms. -/
theorem C8_sample_header_extraction_witness :
    (index_file kickFile none).map
        (fun c => (c.sample_rate, c.channels, c.duration_ms)) =
      some (some 44100, some 2, some 1500) := by
  cases hc : index_file kickFile none with
  | none => exact absurd hc (by decide)
  | some c =>
    obtain ⟨h1, h2, h3⟩ :=
      (C8_sample_header_extraction kickFile none).1 c ⟨44100, 2, 66150⟩ hc
        (by decide) (by decide) rfl (by decide)
    simp only [Option.map, h1, h2, h3]

/-- C2 counterexample: a library whose only discovered candidate is the file
named `.wav` — matched by the `*.wav` glob but of unrecognized kind (its
`pathlib` suffix is empty).  The run finishes with `errors = 1`: the skip IS
counted in the errored statistic, contradicting the claim that the errored
count is not incremented for such a file. -/
theorem C2_counterexample :
    (run_indexer fsDot [libRoot] pkgDb1 exF 1).filesToIndex = [(dotWav, none)] ∧
      get_content_type dotWav.fileName = none ∧
      (run_indexer fsDot [libRoot] pkgDb1 exF 1).stats.errors = 1 := by
  exact ⟨by decide, by decide, by decide⟩

/-- C2 amended: the run aggregates only two per-file outcomes — the worker
returns `false` both for an exception and for an unrecognized kind — so a
discovered candidate whose extension maps to no recognized content kind DOES
increment the run's errored count (there is no separate skipped counter). -/
theorem C2_skip_counted_as_error (fs : FS) (roots : List RootPath) (db : PkgDb)
    (ex : SrcFile → Bool) (w : Nat) (arg : SrcFile × Option Nat)
    (hmem : arg ∈ (run_indexer fs roots db ex w).filesToIndex)
    (hskip : get_content_type arg.1.fileName = none) :
    index_one ex arg = false ∧
    (run_indexer fs roots db ex w).stats.errors =
      ((run_indexer fs roots db ex w).filesToIndex.map (index_one ex)).count false ∧
    1 ≤ (run_indexer fs roots db ex w).stats.errors := by
  have hone : index_one ex arg = false := by rw [index_one, hskip]
  have hstats : (run_indexer fs roots db ex w).stats =
      tallyOutcomes ((run_indexer fs roots db ex w).filesToIndex.map (index_one ex))
        ⟨(run_indexer fs roots db ex w).allPackages.length, 0, 0⟩ := rfl
  rw [hstats, tallyOutcomes_spec]
  refine ⟨hone, by simp, ?_⟩
  have hmemF : false ∈ (run_indexer fs roots db ex w).filesToIndex.map (index_one ex) :=
    hone ▸ List.mem_map_of_mem _ hmem
  simpa using List.count_pos_iff.mpr hmemF

/-- C2 amended witness: the `.wav` dotfile scenario instantiates the amended
claim with one skipped-and-errored file. -/
theorem C2_skip_counted_as_error_witness :
    index_one exF (dotWav, none) = false ∧
      1 ≤ (run_indexer fsDot [libRoot] pkgDb1 exF 1).stats.errors := by
  obtain ⟨h1, _, h3⟩ :=
    C2_skip_counted_as_error fsDot [libRoot] pkgDb1 exF 1 (dotWav, none)
      (by decide) (by decide)
  exact ⟨h1, h3⟩

/-- C3: the claim says a root containing an installed-packages subtree
contributes each packaged file exactly once, with its package id.  The
library-scan guard only tests whether the root's own path string contains
`"installed-packages"`, so such a root re-contributes every packaged file a
second time with no package id: on the concrete one-package filesystem the
work list is `[(pkgFile, some 1), (pkgFile, none)]`, although the root does
match the nesting convention (one package is discovered under it). -/
theorem C3_packaged_file_double_discovered :
    (run_indexer fsPkg [bwRoot] pkgDb1 exF 4).filesToIndex =
        [(pkgFile, some 1), (pkgFile, none)] ∧
      (run_indexer fsPkg [bwRoot] pkgDb1 exF 4).allPackages.length = 1 ∧
      strContains "installed-packages".toList (joinParts bwRoot.parts).toList = false := by
  exact ⟨by decide, by decide, by decide⟩

/-- C4 counterexample: with the `.wav` dotfile as the single discovered
candidate (N = 1), the spec's three outcome counts do not sum to N: the file
is both "skipped" (unrecognized kind) and counted in `errors`, so
indexed + skipped + errored = 0 + 1 + 1 = 2 ≠ 1. -/
theorem C4_counterexample :
    (run_indexer fsDot [libRoot] pkgDb1 exF 1).filesToIndex.length = 1 ∧
      (run_indexer fsDot [libRoot] pkgDb1 exF 1).stats.files +
        ((run_indexer fsDot [libRoot] pkgDb1 exF 1).filesToIndex.filter
            (fun a => (get_content_type a.1.fileName).isNone)).length +
        (run_indexer fsDot [libRoot] pkgDb1 exF 1).stats.errors = 2 := by
  exact ⟨by decide, by decide⟩

/-- C4 amended: the run's statistics have only the two per-file counters
`files` (indexed) and `errors` (everything else, skips included), and
files + errors = N for a library of N discovered candidates; the final counts
are independent of the completion order (any permutation of the per-file
outcomes tallies to the same statistics) and of the worker-pool size. -/
theorem C4_files_plus_errors_conservation (fs : FS) (roots : List RootPath)
    (db : PkgDb) (ex : SrcFile → Bool) (w : Nat) :
    (∀ outs, List.Perm outs
        ((run_indexer fs roots db ex w).filesToIndex.map (index_one ex)) →
      tallyOutcomes outs ⟨(run_indexer fs roots db ex w).allPackages.length, 0, 0⟩ =
        (run_indexer fs roots db ex w).stats) ∧
    (run_indexer fs roots db ex w).stats.files +
        (run_indexer fs roots db ex w).stats.errors =
      (run_indexer fs roots db ex w).filesToIndex.length ∧
    ∀ w2, run_indexer fs roots db ex w2 = run_indexer fs roots db ex w := by
  have hstats : (run_indexer fs roots db ex w).stats =
      tallyOutcomes ((run_indexer fs roots db ex w).filesToIndex.map (index_one ex))
        ⟨(run_indexer fs roots db ex w).allPackages.length, 0, 0⟩ := rfl
  refine ⟨?_, ?_, fun w2 => rfl⟩
  · intro outs hperm
    rw [hstats, tallyOutcomes_spec, tallyOutcomes_spec,
      hperm.count_eq true, hperm.count_eq false]
  · rw [hstats, tallyOutcomes_spec]
    simp only [Nat.zero_add]
    rw [count_true_add_count_false, List.length_map]

/-- C4 amended witness: the outcomes of the dotfile run, tallied in any
order (here the one-element order), give files + errors = N = 1. -/
theorem C4_files_plus_errors_conservation_witness :
    tallyOutcomes [false] ⟨(run_indexer fsDot [libRoot] pkgDb1 exF 1).allPackages.length, 0, 0⟩ =
        (run_indexer fsDot [libRoot] pkgDb1 exF 1).stats ∧
      (run_indexer fsDot [libRoot] pkgDb1 exF 1).stats.files +
          (run_indexer fsDot [libRoot] pkgDb1 exF 1).stats.errors =
        (run_indexer fsDot [libRoot] pkgDb1 exF 1).filesToIndex.length :=
  ⟨(C4_files_plus_errors_conservation fsDot [libRoot] pkgDb1 exF 1).1 [false] (by decide),
   (C4_files_plus_errors_conservation fsDot [libRoot] pkgDb1 exF 1).2.1⟩

/-- C5 counterexample: `A.WAV` under a library root has an extension that is
in the recognized table under case-insensitive comparison (its kind would be
sample), yet the case-sensitive globs never discover it, so it is never
indexed — refuting "indexed iff extension case-insensitively recognized". -/
theorem C5_counterexample :
    get_content_type upWav.fileName = some ContentType.sample ∧
      upWav ∈ fsUp.files ∧ underDir libRoot.parts upWav = true ∧
      (run_indexer fsUp [libRoot] pkgDb1 exF 1).filesToIndex = [] ∧
      (run_indexer fsUp [libRoot] pkgDb1 exF 1).stats.files = 0 := by
  exact ⟨by decide, by decide, by decide, by decide, by decide⟩

/-- Worker outcome characterization: a record is written for a work item iff
its kind is recognized and no exception occurs. -/
theorem index_one_true_iff (ex : SrcFile → Bool) (arg : SrcFile × Option Nat) :
    index_one ex arg = true ↔
      (get_content_type arg.1.fileName ≠ none ∧ ex arg.1 = false) := by
  rw [index_one]
  cases get_content_type arg.1.fileName <;> simp

/-- C5 amended: under a library root (one that is not skipped by the
installed-packages guard and has no package subtree), a file is indexed iff it
is discovered by one of the case-SENSITIVE extension globs AND its `pathlib`
suffix, lowercased, is in the table (these differ for dotfiles like `.wav`
and for upper-case extensions) AND indexing it raises no exception; files the
globs never match produce no record. -/
theorem C5_extension_partition (fs : FS) (root : RootPath) (db : PkgDb)
    (ex : SrcFile → Bool) (w : Nat) (f : SrcFile)
    (hpres : root.present = true)
    (hlib : strContains "installed-packages".toList (joinParts root.parts).toList = false)
    (hnopkg : discover_packages fs root.parts = []) :
    f ∈ ((run_indexer fs [root] db ex w).filesToIndex.filter
          (fun a => index_one ex a)).map (·.1) ↔
      (f ∈ fs.files ∧ underDir root.parts f = true ∧
        (∃ e, e ∈ EXTENSION_MAP ∧ e.1.toList.isSuffixOf f.fileName.toList = true) ∧
        get_content_type f.fileName ≠ none ∧ ex f = false) := by
  have hfti : (run_indexer fs [root] db ex w).filesToIndex =
      (discover_content fs root.parts).map (fun g => (g, (none : Option Nat))) := by
    simp [run_indexer, List.filter, hpres, hnopkg, savePackagesLoop]
    have hlib2 : strContains
        ['i', 'n', 's', 't', 'a', 'l', 'l', 'e', 'd', '-', 'p', 'a', 'c',
         'k', 'a', 'g', 'e', 's'] (joinParts root.parts).data = false := hlib
    rw [hlib2]
    simp
  rw [hfti]
  constructor
  · intro hmem
    obtain ⟨a, ha, hfst⟩ := List.mem_map.mp hmem
    obtain ⟨hin, hone⟩ := List.mem_filter.mp ha
    obtain ⟨g, hg, hga⟩ := List.mem_map.mp hin
    obtain ⟨e, he, hf⟩ := List.mem_flatMap.mp hg
    obtain ⟨hfile, hcond⟩ := List.mem_filter.mp hf
    rw [Bool.and_eq_true] at hcond
    obtain ⟨hunder, hsuf⟩ := hcond
    have hgf : g = f := by rw [← hga] at hfst; exact hfst
    subst hgf
    obtain ⟨hct, hex⟩ := (index_one_true_iff ex a).mp hone
    have hag : a.1 = g := by rw [← hga]
    rw [hag] at hct hex
    exact ⟨hfile, hunder, ⟨e, he, hsuf⟩, hct, hex⟩
  · rintro ⟨hfile, hunder, ⟨e, he, hsuf⟩, hct, hex⟩
    refine List.mem_map.mpr ⟨(f, none), List.mem_filter.mpr ⟨?_, ?_⟩, rfl⟩
    · exact List.mem_map.mpr ⟨f,
        List.mem_flatMap.mpr ⟨e, he,
          List.mem_filter.mpr ⟨hfile, by rw [Bool.and_eq_true]; exact ⟨hunder, hsuf⟩⟩⟩, rfl⟩
    · exact (index_one_true_iff ex (f, none)).mpr ⟨hct, hex⟩

/-- C5 amended witness: `kick.wav` under the library root is discovered,
recognized and indexed. -/
theorem C5_extension_partition_witness :
    kickFile ∈ ((run_indexer fsKick [libRoot] pkgDb1 exF 1).filesToIndex.filter
        (fun a => index_one exF a)).map (·.1) :=
  (C5_extension_partition fsKick libRoot pkgDb1 exF 1 kickFile
      (by decide) (by decide) (by decide)).mpr
    ⟨by decide, by decide, ⟨(".wav", ContentType.sample), by decide, by decide⟩,
      by decide, by decide⟩

/-- C9: every discovered package is persisted by the package-saving loop
(which runs to completion before the file-indexing phase starts — in the
embedding, `savedPackages` is computed before `filesToIndex`), and every
non-null package id carried by a work item (hence by any Content write of the
run) is an id returned by one of those package upserts. -/
theorem C9_packages_persisted_before_content (fs : FS) (roots : List RootPath)
    (db : PkgDb) (ex : SrcFile → Bool) (w : Nat) :
    ((run_indexer fs roots db ex w).savedPackages.map (·.1) =
        (run_indexer fs roots db ex w).allPackages) ∧
    ∀ f pid, (f, some pid) ∈ (run_indexer fs roots db ex w).filesToIndex →
      ∃ pr, pr ∈ (run_indexer fs roots db ex w).savedPackages ∧ pr.2 = pid := by
  refine ⟨savePackagesLoop_fst _ _, ?_⟩
  intro f pid hmem
  have hmem2 : (f, some pid) ∈
      ((((roots.filter (·.present)).flatMap fun r =>
            discover_packages fs r.parts).flatMap fun pkg =>
          (discover_content fs pkg.path).map fun g =>
            (g, some ((packageIdsLookup
              (savePackagesLoop ((roots.filter (·.present)).flatMap fun r =>
                discover_packages fs r.parts) db).1 pkg.path).getD 0))) ++
        ((roots.filter fun r => r.present &&
            !strContains "installed-packages".toList (joinParts r.parts).toList).flatMap
          fun r => (discover_content fs r.parts).map fun g =>
            (g, (none : Option Nat)))) := hmem
  rcases List.mem_append.mp hmem2 with hpk | hlib
  · obtain ⟨pkg, hpkg, hmap⟩ := List.mem_flatMap.mp hpk
    obtain ⟨g, _, hpair⟩ := List.mem_map.mp hmap
    have hpid : some ((packageIdsLookup
        (savePackagesLoop ((roots.filter (·.present)).flatMap fun r =>
          discover_packages fs r.parts) db).1 pkg.path).getD 0) = some pid :=
      congrArg Prod.snd hpair
    have hkey : pkg.path ∈
        (((savePackagesLoop ((roots.filter (·.present)).flatMap fun r =>
            discover_packages fs r.parts) db).1.reverse.map
          fun s => (s.1.path, s.2)).map (·.1)) := by
      have hpkg2 : pkg ∈ (savePackagesLoop ((roots.filter (·.present)).flatMap fun r =>
          discover_packages fs r.parts) db).1.map (·.1) := by
        rw [savePackagesLoop_fst]; exact hpkg
      obtain ⟨pr, hpr, hpr1⟩ := List.mem_map.mp hpkg2
      refine List.mem_map.mpr ⟨(pr.1.path, pr.2), ?_, by rw [hpr1]⟩
      exact List.mem_map_of_mem _ (List.mem_reverse.mpr hpr)
    obtain ⟨v, hv⟩ := lookup_of_mem_keys hkey
    have hlk : packageIdsLookup (savePackagesLoop ((roots.filter (·.present)).flatMap
        fun r => discover_packages fs r.parts) db).1 pkg.path = some v := hv
    rw [hlk] at hpid
    simp only [Option.getD_some, Option.some.injEq] at hpid
    obtain ⟨s, hs, hseq⟩ := List.mem_map.mp (lookup_mem hv)
    refine ⟨s, List.mem_reverse.mp hs, ?_⟩
    have : s.2 = v := congrArg Prod.snd hseq
    rw [this, hpid]
  · obtain ⟨r, _, hmap⟩ := List.mem_flatMap.mp hlib
    obtain ⟨g, _, hpair⟩ := List.mem_map.mp hmap
    exact absurd (congrArg Prod.snd hpair) (by simp)

/-- C9 witness: in the one-package scenario the packaged work item carries
id 1, which the package upsert returned. -/
theorem C9_packages_persisted_before_content_witness :
    (pkgFile, some 1) ∈ (run_indexer fsPkg [bwRoot] pkgDb1 exF 4).filesToIndex ∧
      1 ∈ ((run_indexer fsPkg [bwRoot] pkgDb1 exF 4).savedPackages.map (·.2)) := by
  refine ⟨by decide, ?_⟩
  obtain ⟨pr, hmem, hpr⟩ :=
    (C9_packages_persisted_before_content fsPkg [bwRoot] pkgDb1 exF 4).2 pkgFile 1
      (by decide)
  exact hpr ▸ List.mem_map_of_mem _ hmem

end Bwctl
